import Mathlib

/-!
# Verification of `apple_to_spotify.py` (PlaylistConverter)

A shallow embedding of the playlist-conversion pipeline:

* `pick`, `parseRow`, `read_apple_playlist_txt` — the export parser
  (header-synonym lookup, trimming, title/artist filtering);
* `searchQueries`, `extractItems`, `runQueries`, `best_spotify_match` —
  the fallback match resolver over an abstract search oracle;
* `chunked` — batch partitioning for playlist appends;
* `scanPlaylists`, `findOrCreatePlaylist` — paginated playlist lookup;
* `resolveTracks`, `missReportFile`, `main` — the overall run.

Remote collaborators (the Spotify client) are modelled as explicit
function parameters (a search oracle `String → SearchResponse`, a page
listing `List PlaylistPage`, etc.); Python string truthiness is modelled
explicitly by `pyTruthyStr` / `pyTruthyOpt`.
-/

/-- Truthiness of a Python `str`: falsy exactly when empty. -/
def pyTruthyStr (s : String) : Bool :=
  s != ""

/-- Truthiness of a Python `Optional[str]`: `None` and `""` are falsy. -/
def pyTruthyOpt : Option String → Bool
  | none => false
  | some s => s != ""

/-- Python's `str.strip()`: remove leading and trailing whitespace.
(Stated over the character list so that it evaluates inside the kernel;
`String.trim` does not reduce there.) -/
def pyStrip (s : String) : String :=
  String.mk (((s.data.dropWhile Char.isWhitespace).reverse.dropWhile
    Char.isWhitespace).reverse)

/-! ## Export parser (`read_apple_playlist_txt`) -/

/-- A parsed source record `(track, artist, album)`; the parser stores
`album or None`, so a blank album becomes `none`. -/
structure SourceTrack where
  title : String
  artist : String
  album : Option String
deriving DecidableEq, Repr

/-- One CSV row as produced by `csv.DictReader`: a finite map from header
names to cell values, modelled as an association list with unique keys
(lookup takes the first binding, as a Python dict has one per key). -/
def Row : Type := List (String × String)

/-- `row[k]` guarded by `k in row`: the first value bound to `k`, if any. -/
def lookupRow (row : Row) (k : String) : Option String :=
  (row.find? (fun p => p.1 == k)).map Prod.snd

/-- `pick(row, keys)` from the source: the first key in `keys` that is
present in the row with a non-blank (after `strip`) value gives its
stripped value; otherwise `""`. -/
def pick (row : Row) : List String → String
  | [] => ""
  | k :: ks =>
    match lookupRow row k with
    | some v => if pyStrip v != "" then pyStrip v else pick row ks
    | none => pick row ks

/-- The candidate header names for the title field, in priority order. -/
def titleKeys : List String := ["Name", "Title", "Track Name"]

/-- The candidate header names for the artist field, in priority order. -/
def artistKeys : List String := ["Artist", "Artist Name"]

/-- The candidate header names for the album field, in priority order. -/
def albumKeys : List String := ["Album", "Album Title", "Album Name"]

/-- The per-row body of the reader loop: resolve the three fields with
`pick`; emit `(title, artist, album or None)` when `title and artist` is
truthy, else skip the row. -/
def parseRow (row : Row) : Option SourceTrack :=
  let title := pick row titleKeys
  let artist := pick row artistKeys
  let album := pick row albumKeys
  if pyTruthyStr title && pyTruthyStr artist then
    some ⟨title, artist, if album == "" then none else some album⟩
  else
    none

/-- `read_apple_playlist_txt`, given the rows the CSV reader yields:
collect the records of the rows that pass the title/artist filter. -/
def read_apple_playlist_txt (rows : List Row) : List SourceTrack :=
  rows.filterMap parseRow

/-! ## Match resolver (`best_spotify_match`) -/

/-- A track item of a search response; only its `id` is consumed. -/
structure SpotifyTrack where
  id : String
deriving DecidableEq, Repr

/-- The `"tracks"` object of a search response; `items` is `none` when
the `"items"` key is absent. -/
structure TracksObj where
  items : Option (List SpotifyTrack)
deriving DecidableEq, Repr

/-- A search response; `tracks` is `none` when the `"tracks"` key is
absent. -/
structure SearchResponse where
  tracks : Option TracksObj
deriving DecidableEq, Repr

/-- `results.get("tracks", {}).get("items", [])`: a missing `"tracks"`
or `"items"` key yields the empty list. -/
def extractItems (r : SearchResponse) : List SpotifyTrack :=
  match r.tracks with
  | none => []
  | some t => t.items.getD []

/-- The query ladder built by `best_spotify_match`: the structured
album query is appended only when `album` is truthy, then the structured
title+artist query, the free-text "title artist" query, and the bare
title. -/
def searchQueries (title artist : String) (album : Option String) : List String :=
  (match album with
   | some al =>
     if pyTruthyStr al then
       ["track:\"" ++ title ++ "\" artist:\"" ++ artist ++ "\" album:\"" ++ al ++ "\""]
     else []
   | none => []) ++
  ["track:\"" ++ title ++ "\" artist:\"" ++ artist ++ "\"",
   title ++ " " ++ artist,
   title]

/-- The `for q in queries` loop: issue each query in order against the
search oracle; on the first non-empty item list return its head's id.
Also returns the trace of queries actually issued. -/
def runQueries (search : String → SearchResponse) : List String → Option String × List String
  | [] => (none, [])
  | q :: qs =>
    match extractItems (search q) with
    | item :: _ => (some item.id, [q])
    | [] =>
      let r := runQueries search qs
      (r.1, q :: r.2)

/-- `best_spotify_match`: the result of running the query ladder. -/
def best_spotify_match (search : String → SearchResponse)
    (title artist : String) (album : Option String) : Option String :=
  (runQueries search (searchQueries title artist album)).1

/-- The queries `best_spotify_match` actually issues for one record. -/
def issuedQueries (search : String → SearchResponse)
    (title artist : String) (album : Option String) : List String :=
  (runQueries search (searchQueries title artist album)).2

/-! ## Batching (`chunked`) -/

/-- `chunked(xs, n)`: `xs[i:i+n]` for `i in range(0, len(xs), n)`.
(Python raises `ValueError` when `n = 0`; the program only calls
`chunked` with `n = 100`, and the `n = 0` branch here is never used.) -/
def chunked {α : Type} (xs : List α) (n : Nat) : List (List α) :=
  match xs, n with
  | [], _ => []
  | _ :: _, 0 => []
  | x :: xs', m + 1 => (x :: xs').take (m + 1) :: chunked ((x :: xs').drop (m + 1)) (m + 1)
termination_by xs.length
decreasing_by simp [List.length_drop]; omega

/-! ## Playlist lookup and creation -/

/-- A playlist as seen in the paginated listing. -/
structure SpotifyPlaylist where
  id : String
  name : String
  ownerId : String
deriving DecidableEq, Repr

/-- One page of `current_user_playlists`; `hasNext` models the
truthiness of `pls["next"]`. -/
structure PlaylistPage where
  items : List SpotifyPlaylist
  hasNext : Bool
deriving DecidableEq, Repr

/-- The match condition of the inner loop:
`p["name"] == args.playlist_name and p["owner"]["id"] == current_user`. -/
def isPlMatch (plName owner : String) (p : SpotifyPlaylist) : Bool :=
  p.name == plName && p.ownerId == owner

/-- The inner `for p in pls["items"]` loop: the first playlist on the
page matching the requested name and owner (the `break` stops at it). -/
def pageMatch (plName owner : String) (items : List SpotifyPlaylist) : Option SpotifyPlaylist :=
  items.find? (isPlMatch plName owner)

/-- The `while True` pagination loop. `target` is the running
`target_playlist_id`; each step scans one page, then stops when the
target is truthy or the page has no `next`; otherwise it advances.
Returns the final target and the number of listing calls made. -/
def scanPlaylists (plName owner : String) (target : Option String) :
    List PlaylistPage → Option String × Nat
  | [] => (target, 0)
  | pg :: rest =>
    let target' :=
      match pageMatch plName owner pg.items with
      | some p => some p.id
      | none => target
    if pyTruthyOpt target' || !pg.hasNext then
      (target', 1)
    else
      let r := scanPlaylists plName owner target' rest
      (r.1, r.2 + 1)

/-- `if not target_playlist_id: create`: reuse the found id when truthy,
otherwise create and use the created playlist's id. Returns the target
id and whether a playlist was created. -/
def findOrCreatePlaylist (plName owner createdId : String)
    (pages : List PlaylistPage) : String × Bool :=
  match (scanPlaylists plName owner none pages).1 with
  | some s => if s == "" then (createdId, true) else (s, false)
  | none => (createdId, true)

/-- Well-formed pagination: at least one page, `hasNext` true on every
page but the last and false on the last. -/
def wfPages : List PlaylistPage → Prop
  | [] => False
  | [pg] => pg.hasNext = false
  | pg :: pg' :: rest => pg.hasNext = true ∧ wfPages (pg' :: rest)

/-! ## Resolve loop, miss report, and `main` -/

/-- The `for i, (title, artist, album) in enumerate(rows, 1)` loop:
`if tid:` appends the match to `track_ids`, `else` the record to
`misses`. Python truthiness: both `None` and an empty-string id are
falsy, so a hit whose first item has id `""` counts as a miss. -/
def resolveTracks (matchFn : SourceTrack → Option String) (rows : List SourceTrack) :
    List String × List SourceTrack :=
  rows.foldl
    (fun acc r =>
      match matchFn r with
      | some tid =>
        if pyTruthyStr tid then (acc.1 ++ [tid], acc.2) else (acc.1, acc.2 ++ [r])
      | none => (acc.1, acc.2 ++ [r]))
    ([], [])

/-- The per-record outcome of the resolve loop: the id this record
contributes to `track_ids`, if any; a falsy id (`None` or `""`) under
`if tid:` contributes nothing. -/
def appendedId (matchFn : SourceTrack → Option String) (r : SourceTrack) :
    Option String :=
  match matchFn r with
  | some tid => if pyTruthyStr tid then some tid else none
  | none => none

/-- The miss report: written only when `misses` is non-empty, to the
fixed path `misses.csv`, header row then one row per miss in order; a
`None` album is written as the empty cell by `csv.writer`. -/
def missReportFile (misses : List SourceTrack) : Option (String × List (List String)) :=
  if misses.isEmpty then none
  else
    some ("misses.csv",
      ["Title", "Artist", "Album"] ::
        misses.map (fun r => [r.title, r.artist, r.album.getD ""]))

/-- One remote call made through the Spotify client. -/
inductive RemoteCall where
  | currentUser : RemoteCall
  | listPlaylists (offset : Nat) : RemoteCall
  | createPlaylist : RemoteCall
  | search (q : String) : RemoteCall
  | addItems (ids : List String) : RemoteCall
deriving DecidableEq, Repr

/-- The run's environment: the local facts (`fileExists`, the
`SPOTIFY_USERNAME` variable, the parsed rows of the input file) and the
remote collaborators (search oracle, current user id, the playlist
listing pages, the id the service would assign to a created playlist). -/
structure Env where
  fileExists : Bool
  spotifyUsername : Option String
  parsedRows : List SourceTrack
  searchOracle : String → SearchResponse
  currentUserId : String
  playlistPages : List PlaylistPage
  createdPlaylistId : String

/-- The observable outcome of a run of `main`. -/
structure RunOutcome where
  exitCode : Nat
  calls : List RemoteCall
  targetPlaylistId : Option String
  addedCount : Nat
  missedCount : Nat
  missFile : Option (String × List (List String))
deriving Repr

/-- The source's `main` (the name `main` is reserved in Lean): the
pre-flight checks (missing input file, falsy `SPOTIFY_USERNAME`, empty
parse, each `sys.exit(1)` before any remote call), then playlist
lookup/creation, the resolve loop, the batched appends, the summary
counts and the miss report. -/
def mainRun (env : Env) (playlistName : String) : RunOutcome :=
  if env.fileExists = false then
    ⟨1, [], none, 0, 0, none⟩
  else if pyTruthyOpt env.spotifyUsername = false then
    ⟨1, [], none, 0, 0, none⟩
  else if env.parsedRows.isEmpty then
    ⟨1, [], none, 0, 0, none⟩
  else
    let rows := env.parsedRows
    let scan := scanPlaylists playlistName env.currentUserId none env.playlistPages
    let target := findOrCreatePlaylist playlistName env.currentUserId
      env.createdPlaylistId env.playlistPages
    let matchFn := fun r : SourceTrack =>
      best_spotify_match env.searchOracle r.title r.artist r.album
    let resolved := resolveTracks matchFn rows
    let batches := chunked resolved.1 100
    let calls :=
      [RemoteCall.currentUser] ++
      (List.range scan.2).map (fun i => RemoteCall.listPlaylists (i * 50)) ++
      (if target.2 then [RemoteCall.createPlaylist] else []) ++
      rows.flatMap (fun r =>
        (issuedQueries env.searchOracle r.title r.artist r.album).map RemoteCall.search) ++
      batches.map RemoteCall.addItems
    ⟨0, calls, some target.1, resolved.1.length, resolved.2.length, missReportFile resolved.2⟩

/-! ## Auxiliary definitions for the statements -/

/-- The field lookup as §4.1 of the spec words it: "Resolve the …
field from the first matching name in priority order …. Each lookup
takes the first non-blank match; returns empty/absent if none matches."
Stated with `find?` over the candidate keys, to be compared with the
source's `pick`. -/
def pickSpec (row : Row) (keys : List String) : String :=
  match keys.find? (fun k => pyStrip ((lookupRow row k).getD "") != "") with
  | some k => pyStrip ((lookupRow row k).getD "")
  | none => ""

/-- Extracts the payload of an append (`playlist_add_items`) call. -/
def addItemsPayload : RemoteCall → Option (List String)
  | RemoteCall.addItems ids => some ids
  | _ => none

/-- The match function `main` uses for one record. -/
def envMatch (env : Env) (r : SourceTrack) : Option String :=
  best_spotify_match env.searchOracle r.title r.artist r.album

/-- All playlists of a listing, in listing order. -/
def allListedPlaylists (pages : List PlaylistPage) : List SpotifyPlaylist :=
  (pages.map PlaylistPage.items).flatten

/-! ## Concrete fixtures (used to instantiate the theorems below) -/

/-- A search oracle that answers only the free-text query `"T A"`. -/
def c1Oracle : String → SearchResponse :=
  fun q => if q = "T A" then ⟨some ⟨some [⟨"ID1"⟩]⟩⟩ else ⟨none⟩

/-- A one-track environment whose oracle answers the free-text query. -/
def c2Env : Env :=
  ⟨true, some "user", [⟨"T", "A", none⟩],
   fun q => if q = "T A" then ⟨some ⟨some [⟨"X1"⟩]⟩⟩ else ⟨none⟩,
   "me", [⟨[], false⟩], "NEW"⟩

/-- A two-page listing whose only name-and-owner match sits on page 2. -/
def c4Pages : List PlaylistPage :=
  [⟨[⟨"pidY", "Y", "me"⟩], true⟩, ⟨[⟨"pidX", "X", "me"⟩], false⟩]

/-- An environment with a duplicated source record and one guaranteed miss. -/
def c6Env : Env :=
  ⟨true, some "user", [⟨"T", "A", none⟩, ⟨"M", "B", none⟩, ⟨"T", "A", none⟩],
   fun q => if q = "T A" then ⟨some ⟨some [⟨"X1"⟩]⟩⟩ else ⟨none⟩,
   "me", [⟨[], false⟩], "NEW"⟩

/-- An environment with the account-identity variable unset. -/
def c7Env : Env :=
  ⟨true, none, [⟨"T", "A", none⟩], fun _ => ⟨none⟩, "me", [⟨[], false⟩], "NEW"⟩

/-- An environment with one matched and one missed record. -/
def c10Env : Env :=
  ⟨true, some "user", [⟨"T", "A", none⟩, ⟨"M", "B", none⟩],
   fun q => if q = "T A" then ⟨some ⟨some [⟨"X1"⟩]⟩⟩ else ⟨none⟩,
   "me", [⟨[], false⟩], "NEW"⟩

/-! # Helper lemmas -/

/-! ### Lemmas about `runQueries` and `searchQueries` -/

theorem runQueries_cons_empty (search : String → SearchResponse) (q : String)
    (qs : List String) (h : extractItems (search q) = []) :
    runQueries search (q :: qs) =
      ((runQueries search qs).1, q :: (runQueries search qs).2) := by
  simp [runQueries, h]

theorem runQueries_cons_hit (search : String → SearchResponse) (q : String)
    (qs : List String) (item : SpotifyTrack) (rest : List SpotifyTrack)
    (h : extractItems (search q) = item :: rest) :
    runQueries search (q :: qs) = (some item.id, [q]) := by
  simp [runQueries, h]

theorem runQueries_trace_length (search : String → SearchResponse) (qs : List String) :
    (runQueries search qs).2.length ≤ qs.length := by
  induction qs with
  | nil => simp [runQueries]
  | cons q qs ih =>
    cases h : extractItems (search q) with
    | nil =>
      rw [runQueries_cons_empty _ _ _ h]
      simpa using ih
    | cons item rest =>
      rw [runQueries_cons_hit _ _ _ _ _ h]
      simp

theorem runQueries_all_empty (search : String → SearchResponse) (qs : List String)
    (h : ∀ q ∈ qs, extractItems (search q) = []) :
    runQueries search qs = (none, qs) := by
  induction qs with
  | nil => rfl
  | cons q qs ih =>
    rw [runQueries_cons_empty _ _ _ (h q (List.mem_cons_self q qs)),
      ih (fun q' hq' => h q' (List.mem_cons_of_mem q hq'))]

theorem runQueries_none_iff (search : String → SearchResponse) (qs : List String) :
    (runQueries search qs).1 = none ↔ ∀ q ∈ qs, extractItems (search q) = [] := by
  constructor
  · induction qs with
    | nil => intro _ q hq; exact absurd hq (List.not_mem_nil q)
    | cons q qs ih =>
      intro h q' hq'
      cases he : extractItems (search q) with
      | nil =>
        rw [runQueries_cons_empty _ _ _ he] at h
        rcases List.mem_cons.mp hq' with rfl | hq''
        · exact he
        · exact ih h q' hq''
      | cons item rest =>
        rw [runQueries_cons_hit _ _ _ _ _ he] at h
        exact absurd h (by simp)
  · intro h
    rw [runQueries_all_empty _ _ h]

theorem runQueries_split (search : String → SearchResponse) (qs₁ : List String)
    (q : String) (qs₂ : List String) (item : SpotifyTrack) (rest : List SpotifyTrack)
    (h1 : ∀ q' ∈ qs₁, extractItems (search q') = [])
    (h2 : extractItems (search q) = item :: rest) :
    runQueries search (qs₁ ++ q :: qs₂) = (some item.id, qs₁ ++ [q]) := by
  induction qs₁ with
  | nil => simpa using runQueries_cons_hit search q qs₂ item rest h2
  | cons a as ih =>
    rw [List.cons_append,
      runQueries_cons_empty _ _ _ (h1 a (List.mem_cons_self a as)),
      ih (fun q' hq' => h1 q' (List.mem_cons_of_mem a hq'))]
    simp

theorem runQueries_some (search : String → SearchResponse) (qs : List String) (i : String)
    (h : (runQueries search qs).1 = some i) :
    ∃ q ∈ qs, ∃ item rest, extractItems (search q) = item :: rest ∧ item.id = i := by
  induction qs with
  | nil => exact absurd h (by simp [runQueries])
  | cons q qs ih =>
    cases he : extractItems (search q) with
    | nil =>
      rw [runQueries_cons_empty _ _ _ he] at h
      obtain ⟨q', hq', item, rest, hit, hid⟩ := ih h
      exact ⟨q', List.mem_cons_of_mem q hq', item, rest, hit, hid⟩
    | cons item rest =>
      rw [runQueries_cons_hit _ _ _ _ _ he] at h
      exact ⟨q, List.mem_cons_self q qs, item, rest, he, by
        have := h.symm
        simp at this
        exact this.symm⟩

theorem searchQueries_length_le (t a : String) (al : Option String) :
    (searchQueries t a al).length ≤ 4 := by
  cases al with
  | none => simp [searchQueries]
  | some s =>
    by_cases hs : pyTruthyStr s = true <;> simp [searchQueries, hs]

theorem searchQueries_none_length (t a : String) :
    (searchQueries t a none).length = 3 := by
  simp [searchQueries]

/-! ### Lemmas about `chunked` -/

theorem chunked_cons {α : Type} (x : α) (xs : List α) (m : Nat) :
    chunked (x :: xs) (m + 1) =
      (x :: xs).take (m + 1) :: chunked ((x :: xs).drop (m + 1)) (m + 1) := by
  rw [chunked]

theorem chunked_ne_nil {α : Type} (xs : List α) (m : Nat) (hx : xs ≠ []) :
    chunked xs (m + 1) ≠ [] := by
  cases xs with
  | nil => exact absurd rfl hx
  | cons y ys => rw [chunked_cons]; exact List.cons_ne_nil _ _

theorem chunked_flatten {α : Type} (m : Nat) (xs : List α) :
    (chunked xs (m + 1)).flatten = xs := by
  generalize hL : xs.length = L
  induction L using Nat.strong_induction_on generalizing xs with
  | _ L ih =>
    cases xs with
    | nil => simp [chunked]
    | cons x xs' =>
      simp only [List.length_cons] at hL
      rw [chunked_cons, List.flatten_cons,
        ih (((x :: xs').drop (m + 1)).length)
          (by simp only [List.length_drop, List.length_cons]; omega) _ rfl]
      exact List.take_append_drop _ _

theorem chunked_length {α : Type} (m : Nat) (xs : List α) :
    (chunked xs (m + 1)).length = (xs.length + m) / (m + 1) := by
  generalize hL : xs.length = L
  induction L using Nat.strong_induction_on generalizing xs with
  | _ L ih =>
    cases xs with
    | nil =>
      simp only [List.length_nil] at hL
      subst hL
      simp only [chunked, List.length_nil, Nat.zero_add]
      exact (Nat.div_eq_of_lt (by omega)).symm
    | cons x xs' =>
      simp only [List.length_cons] at hL
      rw [chunked_cons, List.length_cons,
        ih (((x :: xs').drop (m + 1)).length)
          (by simp only [List.length_drop, List.length_cons]; omega) _ rfl]
      simp only [List.length_drop, List.length_cons]
      rcases Nat.lt_or_ge L (m + 2) with hlt | hge
      · have e1 : xs'.length + 1 - (m + 1) + m = m := by omega
        have e2 : L + m = (L - 1) + (m + 1) := by omega
        rw [e1, e2, Nat.add_div_right _ (by omega),
          Nat.div_eq_of_lt (by omega), Nat.div_eq_of_lt (by omega)]
      · have e1 : xs'.length + 1 - (m + 1) + m = L - 1 := by omega
        have e2 : L + m = (L - 1) + (m + 1) := by omega
        rw [e1, e2, Nat.add_div_right _ (by omega)]

theorem chunked_dropLast_length {α : Type} (m : Nat) (xs : List α) :
    ∀ c ∈ (chunked xs (m + 1)).dropLast, c.length = m + 1 := by
  generalize hL : xs.length = L
  induction L using Nat.strong_induction_on generalizing xs with
  | _ L ih =>
    cases xs with
    | nil => simp [chunked]
    | cons x xs' =>
      simp only [List.length_cons] at hL
      rw [chunked_cons]
      rcases eq_or_ne ((x :: xs').drop (m + 1)) ([] : List α) with hnil | hnn
      · rw [hnil]
        simp [chunked]
      · rw [List.dropLast_cons_of_ne_nil (chunked_ne_nil _ _ hnn)]
        intro c hc
        rcases List.mem_cons.mp hc with rfl | hc'
        · have hge : m + 1 ≤ xs'.length + 1 := by
            by_contra hcon
            exact hnn (List.drop_eq_nil_of_le (by simp only [List.length_cons]; omega))
          rw [List.length_take]
          simp only [List.length_cons]
          omega
        · exact ih (((x :: xs').drop (m + 1)).length)
            (by simp only [List.length_drop, List.length_cons]; omega) _ rfl c hc'

theorem chunked_getLast? {α : Type} (m : Nat) (xs : List α) (hx : xs ≠ []) :
    ∃ c, (chunked xs (m + 1)).getLast? = some c ∧
      c.length = if xs.length % (m + 1) = 0 then m + 1 else xs.length % (m + 1) := by
  generalize hL : xs.length = L
  induction L using Nat.strong_induction_on generalizing xs with
  | _ L ih =>
    cases xs with
    | nil => exact absurd rfl hx
    | cons x xs' =>
      simp only [List.length_cons] at hL
      subst hL
      rw [chunked_cons]
      rcases eq_or_ne ((x :: xs').drop (m + 1)) ([] : List α) with hnil | hnn
      · have hle : xs'.length + 1 ≤ m + 1 := by
          by_contra hcon
          have h2 := List.length_drop (m + 1) (x :: xs')
          rw [hnil] at h2
          simp only [List.length_nil, List.length_cons] at h2
          omega
        rw [hnil]
        refine ⟨(x :: xs').take (m + 1), by simp [chunked], ?_⟩
        rw [List.length_take]
        simp only [List.length_cons]
        rcases Nat.lt_or_ge (xs'.length + 1) (m + 1) with hlt | hge
        · rw [if_neg (by rw [Nat.mod_eq_of_lt hlt]; omega), Nat.mod_eq_of_lt hlt]
          omega
        · have heq : xs'.length + 1 = m + 1 := by omega
          rw [heq]
          simp
      · obtain ⟨c, hc1, hc2⟩ :=
          ih (((x :: xs').drop (m + 1)).length)
            (by simp only [List.length_drop, List.length_cons]; omega) _ hnn rfl
        obtain ⟨d, ds, hds⟩ := List.exists_cons_of_ne_nil (chunked_ne_nil _ m hnn)
        rw [hds] at hc1
        refine ⟨c, by rw [hds, List.getLast?_cons_cons]; exact hc1, ?_⟩
        have hge : m + 1 ≤ xs'.length + 1 := by
          by_contra hcon
          exact hnn (List.drop_eq_nil_of_le (by simp only [List.length_cons]; omega))
        have hmod : ((x :: xs').drop (m + 1)).length % (m + 1) =
            (xs'.length + 1) % (m + 1) := by
          rw [List.length_drop]
          simp only [List.length_cons]
          have h1 : xs'.length + 1 = (xs'.length + 1 - (m + 1)) + (m + 1) := by omega
          conv_rhs => rw [h1]
          rw [Nat.add_mod_right]
        rw [hmod] at hc2
        exact hc2


/-! ### Lemmas about `pick` -/

theorem pick_eq_pickSpec (row : Row) (keys : List String) :
    pick row keys = pickSpec row keys := by
  induction keys with
  | nil => rfl
  | cons k ks ih =>
    rw [pick, pickSpec]
    cases hl : lookupRow row k with
    | none =>
      rw [List.find?_cons_of_neg _ (by rw [hl]; decide)]
      show pick row ks = pickSpec row ks
      exact ih
    | some v =>
      cases hv : (pyStrip v == "") with
      | true =>
        rw [List.find?_cons_of_neg _ (by rw [hl]; simpa using hv)]
        show (if pyStrip v != "" then pyStrip v else pick row ks) = pickSpec row ks
        rw [if_neg (by simpa using hv)]
        exact ih
      | false =>
        rw [List.find?_cons_of_pos _ (by rw [hl]; simpa using hv)]
        show (if pyStrip v != "" then pyStrip v else pick row ks) =
          pyStrip ((lookupRow row k).getD "")
        rw [if_pos (by simpa using hv), hl]
        rfl

theorem pick_blank_or_strip (row : Row) (keys : List String) :
    pick row keys = "" ∨
      ∃ k ∈ keys, ∃ v, lookupRow row k = some v ∧ pyStrip v ≠ "" ∧
        pick row keys = pyStrip v := by
  induction keys with
  | nil => exact Or.inl rfl
  | cons k ks ih =>
    cases hl : lookupRow row k with
    | none =>
      rw [pick, hl]
      rcases ih with h | ⟨k', hk', v, hv, hvne, hpick⟩
      · exact Or.inl h
      · exact Or.inr ⟨k', List.mem_cons_of_mem k hk', v, hv, hvne, hpick⟩
    | some v =>
      simp only [pick, hl]
      cases hv : (pyStrip v == "") with
      | true =>
        rw [if_neg (by simpa using hv)]
        rcases ih with h | ⟨k', hk', v', hv', hvne, hpick⟩
        · exact Or.inl h
        · exact Or.inr ⟨k', List.mem_cons_of_mem k hk', v', hv', hvne, hpick⟩
      | false =>
        rw [if_pos (by simpa using hv)]
        exact Or.inr ⟨k, List.mem_cons_self k ks, v, hl, by simpa using hv, rfl⟩

/-! ### Lemmas about `resolveTracks` and `filterMap` -/

theorem resolveTracks_go (f : SourceTrack → Option String) (rows : List SourceTrack)
    (acc1 : List String) (acc2 : List SourceTrack) :
    rows.foldl
      (fun acc r =>
        match f r with
        | some tid =>
          if pyTruthyStr tid then (acc.1 ++ [tid], acc.2) else (acc.1, acc.2 ++ [r])
        | none => (acc.1, acc.2 ++ [r]))
      (acc1, acc2) =
      (acc1 ++ rows.filterMap (appendedId f),
       acc2 ++ rows.filter (fun r => (appendedId f r).isNone)) := by
  induction rows generalizing acc1 acc2 with
  | nil => simp
  | cons r rs ih =>
    rw [List.foldl_cons]
    cases hf : f r with
    | some tid =>
      cases ht : pyTruthyStr tid with
      | true =>
        simp only [hf, ht, if_true]
        rw [ih]
        simp [List.filterMap_cons, List.filter_cons, appendedId, hf, ht]
      | false =>
        simp only [hf, ht, if_false]
        rw [ih]
        simp [List.filterMap_cons, List.filter_cons, appendedId, hf, ht]
    | none =>
      simp only [hf]
      rw [ih]
      simp [List.filterMap_cons, List.filter_cons, appendedId, hf]

theorem resolveTracks_eq (f : SourceTrack → Option String) (rows : List SourceTrack) :
    resolveTracks f rows =
      (rows.filterMap (appendedId f),
       rows.filter (fun r => (appendedId f r).isNone)) := by
  have h := resolveTracks_go f rows [] []
  simpa [resolveTracks] using h

theorem length_filterMap_add_length_filter (f : SourceTrack → Option String)
    (rows : List SourceTrack) :
    (rows.filterMap f).length + (rows.filter (fun r => (f r).isNone)).length =
      rows.length := by
  induction rows with
  | nil => rfl
  | cons r rs ih =>
    cases hf : f r <;> simp [List.filterMap_cons, List.filter_cons, hf] <;> omega

theorem count_filterMap_eq_countP (f : SourceTrack → Option String)
    (rows : List SourceTrack) (i : String) :
    (rows.filterMap f).count i = rows.countP (fun r => f r == some i) := by
  induction rows with
  | nil => rfl
  | cons r rs ih =>
    cases hf : f r with
    | none =>
      rw [List.filterMap_cons, hf, List.countP_cons, ih]
      simp [hf]
    | some tid =>
      rw [List.filterMap_cons, hf, List.count_cons, List.countP_cons, ih]
      simp [hf]

/-! ### Lemmas about `scanPlaylists` -/

theorem scanPlaylists_wf (plName owner : String) (pages : List PlaylistPage)
    (hwf : wfPages pages)
    (hids : ∀ pg ∈ pages, ∀ p ∈ pg.items, p.id ≠ "") :
    (scanPlaylists plName owner none pages).1 =
      ((allListedPlaylists pages).find? (isPlMatch plName owner)).map SpotifyPlaylist.id ∧
    (scanPlaylists plName owner none pages).2 =
      min ((pages.findIdx (fun pg => (pageMatch plName owner pg.items).isSome)) + 1)
        pages.length := by
  induction pages with
  | nil => exact absurd hwf (by simp [wfPages])
  | cons pg rest ih =>
    cases rest with
    | nil =>
      have hnext : pg.hasNext = false := hwf
      have hstep : scanPlaylists plName owner none [pg] =
          ((pageMatch plName owner pg.items).map SpotifyPlaylist.id, 1) := by
        simp only [scanPlaylists, hnext]
        cases hm : pageMatch plName owner pg.items <;> simp [pyTruthyOpt]
      rw [hstep]
      constructor
      · simp [allListedPlaylists, pageMatch]
      · simp only [List.length_singleton]
        omega
    | cons pg' rest' =>
      obtain ⟨hnext, hwf'⟩ := hwf
      have hids' : ∀ pg'' ∈ pg' :: rest', ∀ p ∈ pg''.items, p.id ≠ "" :=
        fun pg'' h => hids pg'' (List.mem_cons_of_mem pg h)
      cases hm : pageMatch plName owner pg.items with
      | some p =>
        have hpid : p.id ≠ "" :=
          hids pg (List.mem_cons_self pg _) p (List.mem_of_find?_eq_some hm)
        have hstep : scanPlaylists plName owner none (pg :: pg' :: rest') =
            (some p.id, 1) := by
          simp only [scanPlaylists, hm]
          simp [pyTruthyOpt, hpid]
        rw [hstep]
        constructor
        · have hf : (pg.items).find? (isPlMatch plName owner) = some p := hm
          simp [allListedPlaylists, List.find?_append, hf]
        · have hidx : (pg :: pg' :: rest').findIdx
              (fun pg'' => (pageMatch plName owner pg''.items).isSome) = 0 := by
            simp [List.findIdx_cons, hm]
          rw [hidx]
          simp only [List.length_cons]
          omega
      | none =>
        have hstep : scanPlaylists plName owner none (pg :: pg' :: rest') =
            ((scanPlaylists plName owner none (pg' :: rest')).1,
             (scanPlaylists plName owner none (pg' :: rest')).2 + 1) := by
          simp only [scanPlaylists, hm, hnext]
          simp [pyTruthyOpt]
        obtain ⟨ih1, ih2⟩ := ih hwf' hids'
        rw [hstep]
        constructor
        · rw [ih1]
          have hf : (pg.items).find? (isPlMatch plName owner) = none := hm
          simp [allListedPlaylists, List.find?_append, hf]
        · rw [ih2]
          have hidx : (pg :: pg' :: rest').findIdx
              (fun pg'' => (pageMatch plName owner pg''.items).isSome) =
              ((pg' :: rest').findIdx
                (fun pg'' => (pageMatch plName owner pg''.items).isSome)) + 1 := by
            simp [List.findIdx_cons, hm]
          rw [hidx]
          simp only [List.length_cons]
          omega

/-! ### Lemmas about `mainRun` -/

theorem mainRun_success (env : Env) (name : String)
    (h1 : env.fileExists = true) (h2 : pyTruthyOpt env.spotifyUsername = true)
    (h3 : env.parsedRows ≠ []) :
    mainRun env name =
      ⟨0,
       [RemoteCall.currentUser] ++
         (List.range (scanPlaylists name env.currentUserId none env.playlistPages).2).map
           (fun i => RemoteCall.listPlaylists (i * 50)) ++
         (if (findOrCreatePlaylist name env.currentUserId env.createdPlaylistId
               env.playlistPages).2
          then [RemoteCall.createPlaylist] else []) ++
         env.parsedRows.flatMap (fun r =>
           (issuedQueries env.searchOracle r.title r.artist r.album).map RemoteCall.search) ++
         (chunked (resolveTracks (envMatch env) env.parsedRows).1 100).map RemoteCall.addItems,
       some (findOrCreatePlaylist name env.currentUserId env.createdPlaylistId
         env.playlistPages).1,
       (resolveTracks (envMatch env) env.parsedRows).1.length,
       (resolveTracks (envMatch env) env.parsedRows).2.length,
       missReportFile (resolveTracks (envMatch env) env.parsedRows).2⟩ := by
  simp only [mainRun, h1, h2]
  rw [if_neg (by simp), if_neg (by simp), if_neg (by simpa using h3)]
  rfl

theorem mainRun_append_batches (env : Env) (name : String)
    (h1 : env.fileExists = true) (h2 : pyTruthyOpt env.spotifyUsername = true)
    (h3 : env.parsedRows ≠ []) :
    (mainRun env name).calls.filterMap addItemsPayload =
      chunked (env.parsedRows.filterMap (appendedId (envMatch env))) 100 := by
  rw [mainRun_success env name h1 h2 h3]
  simp only [List.filterMap_append]
  have e1 : List.filterMap addItemsPayload [RemoteCall.currentUser] = [] := rfl
  have e2 : List.filterMap addItemsPayload
      ((List.range (scanPlaylists name env.currentUserId none env.playlistPages).2).map
        (fun i => RemoteCall.listPlaylists (i * 50))) = [] :=
    List.filterMap_eq_nil_iff.mpr (by
      intro c hc
      obtain ⟨i, _, rfl⟩ := List.mem_map.mp hc
      rfl)
  have e3 : List.filterMap addItemsPayload
      (if (findOrCreatePlaylist name env.currentUserId env.createdPlaylistId
            env.playlistPages).2
       then [RemoteCall.createPlaylist] else []) = [] := by
    split <;> rfl
  have e4 : List.filterMap addItemsPayload
      (env.parsedRows.flatMap (fun r =>
        (issuedQueries env.searchOracle r.title r.artist r.album).map
          RemoteCall.search)) = [] :=
    List.filterMap_eq_nil_iff.mpr (by
      intro c hc
      obtain ⟨r, _, hc'⟩ := List.mem_flatMap.mp hc
      obtain ⟨q, _, rfl⟩ := List.mem_map.mp hc'
      rfl)
  have e5 : List.filterMap addItemsPayload
      ((chunked (resolveTracks (envMatch env) env.parsedRows).1 100).map
        RemoteCall.addItems) =
      chunked (resolveTracks (envMatch env) env.parsedRows).1 100 := by
    rw [List.filterMap_map]
    have : (addItemsPayload ∘ RemoteCall.addItems) = some := rfl
    rw [this, List.filterMap_some]
  rw [e1, e2, e3, e4, e5, resolveTracks_eq]
  simp

/-! # Claim theorems -/

/-- **C1.** For every source record (title, artist, optional album), the
Match Resolver tries search queries in the fixed fallback order —
structured title+artist+album (only when album is present), then
structured title+artist, then free-text "title artist", then free-text
title alone — issuing at most 4 attempts (at most 3 when album is
absent); it stops at the first query whose result list is non-empty and
returns that list's first (highest-ranked) item's identifier, and
returns a miss if and only if every tried level yields zero results. -/
theorem claim_C1_fallback_ladder (search : String → SearchResponse)
    (title artist : String) (album : Option String) :
    (issuedQueries search title artist album).length ≤ 4 ∧
    (album = none → (issuedQueries search title artist album).length ≤ 3) ∧
    (best_spotify_match search title artist album = none ↔
      ∀ q ∈ searchQueries title artist album, extractItems (search q) = []) ∧
    (∀ qs₁ q qs₂ item rest,
      searchQueries title artist album = qs₁ ++ q :: qs₂ →
      (∀ q' ∈ qs₁, extractItems (search q') = []) →
      extractItems (search q) = item :: rest →
      best_spotify_match search title artist album = some item.id ∧
      issuedQueries search title artist album = qs₁ ++ [q]) := by
  refine ⟨?_, ?_, ?_, ?_⟩
  · exact le_trans (runQueries_trace_length search _)
      (searchQueries_length_le title artist album)
  · intro hal
    subst hal
    exact le_trans (runQueries_trace_length search _)
      (le_of_eq (searchQueries_none_length title artist))
  · exact runQueries_none_iff search _
  · intro qs₁ q qs₂ item rest hsplit hemp hit
    have h := runQueries_split search qs₁ q qs₂ item rest hemp hit
    constructor
    · show (runQueries search (searchQueries title artist album)).1 = some item.id
      rw [hsplit, h]
    · show (runQueries search (searchQueries title artist album)).2 = qs₁ ++ [q]
      rw [hsplit, h]

/-- Witness for C1: with an oracle that answers only the free-text
query, the resolver returns that query's first result and issues exactly
the first two queries of the ladder. -/
theorem claim_C1_witness :
    best_spotify_match c1Oracle "T" "A" none = some "ID1" ∧
    issuedQueries c1Oracle "T" "A" none =
      ["track:\"T\" artist:\"A\"", "T A"] := by
  have h := (claim_C1_fallback_ladder c1Oracle "T" "A" none).2.2.2
    ["track:\"T\" artist:\"A\""] "T A" ["T"] ⟨"ID1"⟩ []
    rfl
    (by
      intro q' hq'
      rw [List.mem_singleton] at hq'
      subst hq'
      rfl)
    rfl
  exact h

/-- **C2.** For every resolved track-identifier sequence of length L,
the Synchronizer issues exactly ceil(L/100) append calls in sequence,
each of size exactly 100 except possibly the last (which has size
L mod 100, or 100 when L is a positive multiple of 100); the
concatenation of the batches equals the original sequence, and zero
append calls are issued when L = 0. -/
theorem claim_C2_batching (ids : List String) :
    ((chunked ids 100).length = (ids.length + 99) / 100) ∧
    (∀ c ∈ (chunked ids 100).dropLast, c.length = 100) ∧
    (ids ≠ [] → ∃ c, (chunked ids 100).getLast? = some c ∧
      c.length = if ids.length % 100 = 0 then 100 else ids.length % 100) ∧
    ((chunked ids 100).flatten = ids) ∧
    (ids = [] → chunked ids 100 = []) ∧
    (∀ env name, env.fileExists = true → pyTruthyOpt env.spotifyUsername = true →
      env.parsedRows ≠ [] →
      (mainRun env name).calls.filterMap addItemsPayload =
        chunked (env.parsedRows.filterMap (appendedId (envMatch env))) 100) := by
  have h100 : (100 : Nat) = 99 + 1 := rfl
  refine ⟨?_, ?_, ?_, ?_, ?_, ?_⟩
  · rw [h100, chunked_length]
  · rw [h100]
    exact chunked_dropLast_length 99 ids
  · intro hne
    rw [h100]
    simpa using chunked_getLast? 99 ids hne
  · rw [h100]
    exact chunked_flatten 99 ids
  · intro h
    subst h
    simp [chunked]
  · exact fun env name h1 h2 h3 => mainRun_append_batches env name h1 h2 h3

/-- Witness for C2: a 2-element sequence produces one final batch of
size 2, and a concrete successful run issues its ids as one batch. -/
theorem claim_C2_witness :
    (∃ c, (chunked ["a", "b"] 100).getLast? = some c ∧
      c.length = if (["a", "b"] : List String).length % 100 = 0 then 100
        else (["a", "b"] : List String).length % 100) ∧
    (mainRun c2Env "P").calls.filterMap addItemsPayload =
      chunked (c2Env.parsedRows.filterMap (appendedId (envMatch c2Env))) 100 :=
  ⟨(claim_C2_batching ["a", "b"]).2.2.1 (by decide),
   (claim_C2_batching []).2.2.2.2.2 c2Env "P" rfl rfl (by decide)⟩

/-- **C9.** For every search response whose mapping lacks a "tracks"
key, or whose "tracks" value lacks an "items" key, the Match Resolver
treats the response as an empty result set and falls through to the
next fallback level rather than failing; it never indexes into an empty
items list, so selecting items[0] is always guarded by a non-emptiness
check. -/
theorem claim_C9_malformed_response :
    (∀ r : SearchResponse, r.tracks = none → extractItems r = []) ∧
    (∀ r t, r.tracks = some t → t.items = none → extractItems r = []) ∧
    (∀ search : String → SearchResponse, ∀ q qs, extractItems (search q) = [] →
      runQueries search (q :: qs) =
        ((runQueries search qs).1, q :: (runQueries search qs).2)) ∧
    (∀ search : String → SearchResponse, ∀ qs i, (runQueries search qs).1 = some i →
      ∃ q ∈ qs, ∃ item rest, extractItems (search q) = item :: rest ∧ item.id = i) := by
  refine ⟨?_, ?_, ?_, ?_⟩
  · intro r h
    simp [extractItems, h]
  · intro r t h1 h2
    simp [extractItems, h1, h2]
  · exact fun s q qs h => runQueries_cons_empty s q qs h
  · exact fun s qs i h => runQueries_some s qs i h

/-- Witness for C9: responses with a missing "tracks" key or a missing
"items" key both extract to the empty result set. -/
theorem claim_C9_witness :
    extractItems ⟨none⟩ = [] ∧ extractItems ⟨some ⟨none⟩⟩ = [] :=
  ⟨claim_C9_malformed_response.1 ⟨none⟩ rfl,
   claim_C9_malformed_response.2.1 ⟨some ⟨none⟩⟩ ⟨none⟩ rfl rfl⟩

/-- **C3.** For every input row, the Parser emits a record if and only
if both the resolved title and the resolved artist are non-empty after
trimming whitespace; a row missing title or artist (after trimming) is
never emitted, and in an emitted record an absent or blank album is
represented as a distinguished "no album" value (`none`) rather than an
empty string. -/
theorem claim_C3_parser_filter :
    (∀ row : Row, (∃ rec, parseRow row = some rec) ↔
      (pick row titleKeys ≠ "" ∧ pick row artistKeys ≠ "")) ∧
    (∀ row : Row, ∀ rec, parseRow row = some rec →
      rec.title = pick row titleKeys ∧
      rec.artist = pick row artistKeys ∧
      (rec.album = none ↔ pick row albumKeys = "") ∧
      rec.album ≠ some "") ∧
    (∀ rows : List Row, read_apple_playlist_txt rows = rows.filterMap parseRow) ∧
    (∀ (row : Row) (keys : List String), pick row keys = "" ∨
      ∃ k ∈ keys, ∃ v, lookupRow row k = some v ∧ pyStrip v ≠ "" ∧
        pick row keys = pyStrip v) := by
  have hchar : ∀ row : Row, parseRow row =
      if (pyTruthyStr (pick row titleKeys) && pyTruthyStr (pick row artistKeys)) = true
      then some ⟨pick row titleKeys, pick row artistKeys,
        if pick row albumKeys == "" then none else some (pick row albumKeys)⟩
      else none := fun row => rfl
  refine ⟨?_, ?_, fun rows => rfl, pick_blank_or_strip⟩
  · intro row
    rw [hchar row]
    by_cases hc : (pyTruthyStr (pick row titleKeys) &&
        pyTruthyStr (pick row artistKeys)) = true
    · rw [if_pos hc]
      simp only [pyTruthyStr, Bool.and_eq_true, bne_iff_ne, ne_eq] at hc
      exact iff_of_true ⟨_, rfl⟩ hc
    · rw [if_neg hc]
      simp only [pyTruthyStr, Bool.and_eq_true, bne_iff_ne, ne_eq] at hc
      constructor
      · rintro ⟨rec, hrec⟩
        exact absurd hrec (by simp)
      · intro h
        exact absurd (by tauto) hc
  · intro row rec hrec
    rw [hchar row] at hrec
    by_cases hc : (pyTruthyStr (pick row titleKeys) &&
        pyTruthyStr (pick row artistKeys)) = true
    · rw [if_pos hc] at hrec
      injection hrec with h
      subst h
      refine ⟨rfl, rfl, ?_, ?_⟩
      · by_cases halb : (pick row albumKeys == "") = true
        · rw [if_pos halb]
          simp only [beq_iff_eq] at halb
          exact iff_of_true rfl halb
        · rw [if_neg halb]
          simp only [beq_iff_eq] at halb
          exact iff_of_false (by simp) halb
      · by_cases halb : (pick row albumKeys == "") = true
        · rw [if_pos halb]
          simp
        · rw [if_neg halb]
          simp only [beq_iff_eq] at halb
          simp [halb]
    · rw [if_neg hc] at hrec
      exact absurd hrec (by simp)

/-- Witness for C3: a row with a whitespace-padded title and a plain
artist is emitted. -/
theorem claim_C3_witness :
    ∃ rec, parseRow [("Name", " S "), ("Artist", "A")] = some rec :=
  (claim_C3_parser_filter.1 [("Name", " S "), ("Artist", "A")]).mpr
    ⟨by decide, by decide⟩

/-- **C5.** For any fixed row data, parsing an export file whose header
uses any single accepted column-name synonym (title from
{"Name", "Title", "Track Name"}, artist from {"Artist", "Artist Name"},
album from {"Album", "Album Title", "Album Name"}) yields exactly the
same normalized records as parsing the same data under the canonical
header names; each field lookup takes the first candidate key, in
priority order, whose value is present and non-blank, and yields
empty/absent when no candidate matches. -/
theorem claim_C5_header_synonyms :
    (∀ tk ∈ titleKeys, ∀ ak ∈ artistKeys, ∀ alk ∈ albumKeys, ∀ t a al : String,
      parseRow [(tk, t), (ak, a), (alk, al)] =
        parseRow [("Name", t), ("Artist", a), ("Album", al)]) ∧
    (∀ (row : Row) (keys : List String), pick row keys = pickSpec row keys) := by
  constructor
  · intro tk htk ak hak alk halk t a al
    simp only [titleKeys, artistKeys, albumKeys, List.mem_cons,
      List.not_mem_nil, or_false] at htk hak halk
    rcases htk with rfl | rfl | rfl <;> rcases hak with rfl | rfl <;>
      rcases halk with rfl | rfl | rfl <;> rfl
  · exact pick_eq_pickSpec

/-- Witness for C5: the fully-synonymous header yields the same record
as the canonical one. -/
theorem claim_C5_witness :
    parseRow [("Track Name", "S"), ("Artist Name", "A"), ("Album Name", "L")] =
      parseRow [("Name", "S"), ("Artist", "A"), ("Album", "L")] :=
  claim_C5_header_synonyms.1 "Track Name" (by decide) "Artist Name" (by decide)
    "Album Name" (by decide) "S" "A" "L"

/-- **C4.** The Synchronizer scans the playlist listing page by page and
stops at the first playlist whose name and owner match — first
encountered in listing order wins — continuing to later pages only
while no match is found and a next page exists; it creates a new
playlist if and only if no page contains a match, and when a match
exists (even on a later page) it reuses that playlist's identifier
without creating a duplicate. -/
theorem claim_C4_playlist_lookup (plName owner createdId : String)
    (pages : List PlaylistPage) (hwf : wfPages pages)
    (hids : ∀ pg ∈ pages, ∀ p ∈ pg.items, p.id ≠ "") :
    ((findOrCreatePlaylist plName owner createdId pages).2 = true ↔
      ∀ p ∈ allListedPlaylists pages, isPlMatch plName owner p = false) ∧
    ((findOrCreatePlaylist plName owner createdId pages).2 = true →
      (findOrCreatePlaylist plName owner createdId pages).1 = createdId) ∧
    (∀ p, (allListedPlaylists pages).find? (isPlMatch plName owner) = some p →
      findOrCreatePlaylist plName owner createdId pages = (p.id, false)) ∧
    ((scanPlaylists plName owner none pages).2 =
      min ((pages.findIdx (fun pg => (pageMatch plName owner pg.items).isSome)) + 1)
        pages.length) := by
  obtain ⟨hs1, hs2⟩ := scanPlaylists_wf plName owner pages hwf hids
  have hne : ∀ p, (allListedPlaylists pages).find? (isPlMatch plName owner) = some p →
      p.id ≠ "" := by
    intro p hp
    obtain ⟨l, hl, hpl⟩ := List.mem_flatten.mp (List.mem_of_find?_eq_some hp)
    obtain ⟨pg, hpg, rfl⟩ := List.mem_map.mp hl
    exact hids pg hpg p hpl
  cases hf : (allListedPlaylists pages).find? (isPlMatch plName owner) with
  | none =>
    have hscan : (scanPlaylists plName owner none pages).1 = none := by
      rw [hs1, hf]
      rfl
    have hfoc : findOrCreatePlaylist plName owner createdId pages =
        (createdId, true) := by
      simp only [findOrCreatePlaylist, hscan]
    refine ⟨?_, ?_, ?_, hs2⟩
    · rw [hfoc]
      exact iff_of_true rfl (fun p hp => by
        simpa using List.find?_eq_none.mp hf p hp)
    · intro _
      rw [hfoc]
    · intro p hp
      exact absurd hp (by simp)
  | some p =>
    have hpid : p.id ≠ "" := hne p hf
    have hscan : (scanPlaylists plName owner none pages).1 = some p.id := by
      rw [hs1, hf]
      rfl
    have hfoc : findOrCreatePlaylist plName owner createdId pages =
        (p.id, false) := by
      simp only [findOrCreatePlaylist, hscan]
      rw [if_neg (by simpa using hpid)]
    refine ⟨?_, ?_, ?_, hs2⟩
    · rw [hfoc]
      refine iff_of_false (by simp) (fun hall => ?_)
      have h1 := List.find?_some hf
      have h2 := hall p (List.mem_of_find?_eq_some hf)
      rw [h2] at h1
      cases h1
    · intro h
      rw [hfoc] at h
      exact absurd h (by simp)
    · intro p' hp'
      injection hp' with h
      subst h
      exact hfoc

/-- Witness for C4: a match on page 2 of a 2-page listing is found and
reused (no creation) after paging past page 1. -/
theorem claim_C4_witness :
    findOrCreatePlaylist "X" "me" "NEW" c4Pages = ("pidX", false) ∧
    (scanPlaylists "X" "me" none c4Pages).2 = 2 := by
  have h := claim_C4_playlist_lookup "X" "me" "NEW" c4Pages ⟨rfl, rfl⟩ (by decide)
  refine ⟨h.2.2.1 ⟨"pidX", "X", "me"⟩ (by decide), ?_⟩
  rw [h.2.2.2]
  decide

/-- **C6.** The sequence of track identifiers appended to the playlist
is exactly the resolved records' identifiers in source-file order with
the missed records removed — order is independent of which records
missed — and duplicate records in the source pass through unchanged
(no deduplication at any stage), so a source track matched twice is
appended twice. -/
theorem claim_C6_append_order (env : Env) (name : String)
    (h1 : env.fileExists = true) (h2 : pyTruthyOpt env.spotifyUsername = true)
    (h3 : env.parsedRows ≠ []) :
    ((mainRun env name).calls.filterMap addItemsPayload).flatten =
      env.parsedRows.filterMap (appendedId (envMatch env)) ∧
    (∀ i : String,
      ((mainRun env name).calls.filterMap addItemsPayload).flatten.count i =
        env.parsedRows.countP (fun r => appendedId (envMatch env) r == some i)) ∧
    (∀ i : String, i ≠ "" →
      env.parsedRows.countP (fun r => appendedId (envMatch env) r == some i) =
        env.parsedRows.countP (fun r => envMatch env r == some i)) := by
  have hb := mainRun_append_batches env name h1 h2 h3
  have hflat : ((mainRun env name).calls.filterMap addItemsPayload).flatten =
      env.parsedRows.filterMap (appendedId (envMatch env)) := by
    rw [hb, show (100 : Nat) = 99 + 1 from rfl, chunked_flatten]
  refine ⟨hflat, fun i => ?_, fun i hi => ?_⟩
  · rw [hflat, count_filterMap_eq_countP]
  · refine List.countP_congr ?_
    intro r _
    cases hf : envMatch env r with
    | none => simp [appendedId, hf]
    | some tid =>
      cases ht : pyTruthyStr tid with
      | true => simp [appendedId, hf, ht]
      | false =>
        have htid : tid = "" := by simpa [pyTruthyStr] using ht
        subst htid
        simp [appendedId, hf, ht, beq_iff_eq, Ne.symm hi]

/-- Witness for C6: in a run whose source has a duplicated record, the
appended id sequence is the source-ordered filter of the matches (the
duplicate appears twice). -/
theorem claim_C6_witness :
    ((mainRun c6Env "P").calls.filterMap addItemsPayload).flatten =
      c6Env.parsedRows.filterMap (appendedId (envMatch c6Env)) :=
  (claim_C6_append_order c6Env "P" rfl rfl (by decide)).1

/-- **C7.** The program exits with code 1 in exactly three pre-flight
cases — the input file does not exist, the required account-identity
configuration value is missing (falsy), or the parsed export yields
zero usable records — and in each of these cases it exits before any
remote call is made; in every other completed run, including runs with
unmatched records, it exits with code 0. -/
theorem claim_C7_exit_codes (env : Env) (name : String) :
    ((mainRun env name).exitCode = 1 ↔
      (env.fileExists = false ∨ pyTruthyOpt env.spotifyUsername = false ∨
        env.parsedRows = [])) ∧
    ((mainRun env name).exitCode = 1 ∨ (mainRun env name).exitCode = 0) ∧
    ((mainRun env name).exitCode = 1 → (mainRun env name).calls = []) := by
  by_cases h1 : env.fileExists = false
  · have hm : mainRun env name = ⟨1, [], none, 0, 0, none⟩ := by
      simp [mainRun, h1]
    rw [hm]
    exact ⟨iff_of_true rfl (Or.inl h1), Or.inl rfl, fun _ => rfl⟩
  · by_cases h2 : pyTruthyOpt env.spotifyUsername = false
    · have hm : mainRun env name = ⟨1, [], none, 0, 0, none⟩ := by
        simp [mainRun, h1, h2]
      rw [hm]
      exact ⟨iff_of_true rfl (Or.inr (Or.inl h2)), Or.inl rfl, fun _ => rfl⟩
    · by_cases h3 : env.parsedRows = []
      · have hm : mainRun env name = ⟨1, [], none, 0, 0, none⟩ := by
          simp [mainRun, h1, h2, h3]
        rw [hm]
        exact ⟨iff_of_true rfl (Or.inr (Or.inr h3)), Or.inl rfl, fun _ => rfl⟩
      · have h1' : env.fileExists = true := by
          revert h1
          cases env.fileExists <;> simp
        have h2' : pyTruthyOpt env.spotifyUsername = true := by
          revert h2
          cases pyTruthyOpt env.spotifyUsername <;> simp
        rw [mainRun_success env name h1' h2' h3]
        refine ⟨iff_of_false (by simp) ?_, Or.inr rfl, fun h => absurd h (by simp)⟩
        rintro (h | h | h)
        · rw [h1'] at h
          cases h
        · rw [h2'] at h
          cases h
        · exact h3 h

/-- Witness for C7: with the account-identity variable unset, the run
exits with code 1 and makes no remote call. -/
theorem claim_C7_witness :
    (mainRun c7Env "P").exitCode = 1 ∧ (mainRun c7Env "P").calls = [] := by
  have h := claim_C7_exit_codes c7Env "P"
  have he : (mainRun c7Env "P").exitCode = 1 :=
    h.1.mpr (Or.inr (Or.inl rfl))
  exact ⟨he, h.2.2 he⟩

/-- **C8.** The Miss Reporter writes the report file if and only if the
miss sequence is non-empty; when written, the file is at the fixed
relative path `misses.csv`, is overwritten from scratch, starts with
the header row Title, Artist, Album, and contains exactly one row per
unmatched record in order, with the album column blank when the
record's album is absent. -/
theorem claim_C8_miss_report (misses : List SourceTrack) :
    (missReportFile misses = none ↔ misses = []) ∧
    (misses ≠ [] →
      missReportFile misses =
        some ("misses.csv",
          ["Title", "Artist", "Album"] ::
            misses.map (fun r => [r.title, r.artist, r.album.getD ""]))) ∧
    (∀ path content, missReportFile misses = some (path, content) →
      path = "misses.csv" ∧
      content.head? = some ["Title", "Artist", "Album"] ∧
      content.length = misses.length + 1 ∧
      content.tail = misses.map (fun r => [r.title, r.artist, r.album.getD ""])) := by
  by_cases h : misses.isEmpty
  · have hm : missReportFile misses = none := by
      simp [missReportFile, h]
    have hnil : misses = [] := by simpa using h
    refine ⟨iff_of_true hm hnil, fun hne => absurd hnil hne, ?_⟩
    intro path content hpc
    rw [hm] at hpc
    exact absurd hpc (by simp)
  · have hm : missReportFile misses =
        some ("misses.csv",
          ["Title", "Artist", "Album"] ::
            misses.map (fun r => [r.title, r.artist, r.album.getD ""])) := by
      simp [missReportFile, h]
    have hne : misses ≠ [] := by simpa using h
    refine ⟨iff_of_false (by rw [hm]; simp) hne, fun _ => hm, ?_⟩
    intro path content hpc
    rw [hm] at hpc
    injection hpc with hp
    injection hp with hpath hcontent
    subst hpath
    subst hcontent
    exact ⟨rfl, rfl, by simp, rfl⟩

/-- Witness for C8: one miss with an absent album produces the
two-line report with a blank album cell. -/
theorem claim_C8_witness :
    missReportFile [⟨"T", "A", none⟩] =
      some ("misses.csv", [["Title", "Artist", "Album"], ["T", "A", ""]]) :=
  (claim_C8_miss_report [⟨"T", "A", none⟩]).2.1 (by decide)

/-- **C10.** Every parsed record is classified into exactly one of the
two output sequences of the resolve loop — the matched track-identifier
list or the miss list — so after resolution the number of matched
identifiers plus the number of misses equals the number of parsed
records, and the final summary's added and missed counts are exactly
those two lengths. -/
theorem claim_C10_partition (env : Env) (name : String)
    (h1 : env.fileExists = true) (h2 : pyTruthyOpt env.spotifyUsername = true)
    (h3 : env.parsedRows ≠ []) :
    (mainRun env name).addedCount + (mainRun env name).missedCount =
      env.parsedRows.length ∧
    (mainRun env name).addedCount =
      (resolveTracks (envMatch env) env.parsedRows).1.length ∧
    (mainRun env name).missedCount =
      (resolveTracks (envMatch env) env.parsedRows).2.length ∧
    (resolveTracks (envMatch env) env.parsedRows).1.length +
      (resolveTracks (envMatch env) env.parsedRows).2.length =
      env.parsedRows.length := by
  have hsum : (resolveTracks (envMatch env) env.parsedRows).1.length +
      (resolveTracks (envMatch env) env.parsedRows).2.length =
      env.parsedRows.length := by
    rw [resolveTracks_eq]
    exact length_filterMap_add_length_filter (appendedId (envMatch env)) env.parsedRows
  rw [mainRun_success env name h1 h2 h3]
  exact ⟨hsum, rfl, rfl, hsum⟩

/-- Witness for C10: a run with one match and one miss partitions its
two records into counts 1 + 1 = 2. -/
theorem claim_C10_witness :
    (mainRun c10Env "P").addedCount + (mainRun c10Env "P").missedCount =
      c10Env.parsedRows.length :=
  (claim_C10_partition c10Env "P" rfl rfl (by decide)).1
